import Mathlib

/-
Verification development for the RV outer-loop vectorizer
(src/src/passes/LoopVectorizer.cpp, src/src/annotations.cpp).

The definitions below are a shallow embedding of the pass:
pure C++ helpers become Lean functions on explicit inputs
(the ScalarEvolution backedge-taken count, loop annotation fields,
environment variables), and machine-integer narrowing is made
explicit with wrap-around arithmetic.  Components of the repository
that are not part of src/ (the remainder transform, the cost model
internals, the LoopMD metadata type) are modelled from the spec and
carry a doc comment saying so.
-/

namespace RV

/-! ## Machine integer helpers (int is 32 bit, size_t and iter_t are 64 bit) -/

def INT32_MIN : Int := -(2 ^ 31)

def INT32_MAX : Int := 2 ^ 31 - 1

/-- Conversion of a 64-bit signed value to C `int`: two's complement
wrap-around modulo 2^32, as performed by the narrowing conversions in
`LoopVectorizer.cpp` (`(int) BTCVal`, `VectorWidth = refinedWidth`). -/
def wrap32 (x : Int) : Int := (x + 2 ^ 31) % 2 ^ 32 - 2 ^ 31

/-- Conversion of an unsigned 64-bit quantity (`size_t`, `iter_t`) to C `int`. -/
def natToInt32 (n : Nat) : Int := wrap32 (n : Int)

/-- Conversion of a C `int` to `size_t` (`(size_t) VectorWidth`):
modular reduction into the unsigned 64-bit range. -/
def intToSizeT (x : Int) : Nat := (x % (2 ^ 64 : Int)).toNat

theorem wrap32_nonneg_bound (x : Int) : -(2 ^ 31) ≤ wrap32 x ∧ wrap32 x < 2 ^ 31 := by
  unfold wrap32
  have h1 : (0:Int) ≤ (x + 2 ^ 31) % 2 ^ 32 := Int.emod_nonneg _ (by norm_num)
  have h2 : (x + 2 ^ 31) % 2 ^ 32 < 2 ^ 32 := Int.emod_lt_of_pos _ (by norm_num)
  constructor <;> omega

theorem wrap32_eq_self (x : Int) (h1 : -(2 ^ 31) ≤ x) (h2 : x < 2 ^ 31) :
    wrap32 x = x := by
  unfold wrap32
  have h3 : (x + 2 ^ 31) % 2 ^ 32 = x + 2 ^ 31 :=
    Int.emod_eq_of_lt (by omega) (by omega)
  omega

theorem natToInt32_eq_self (n : Nat) (h : n < 2 ^ 31) : natToInt32 n = (n : Int) := by
  apply wrap32_eq_self
  · omega
  · exact_mod_cast h

/-! ## Trip count and trip alignment (LoopVectorizer::getTripCount,
LoopVectorizer::getTripAlignment, src lines 71-96).

The input `btc` is the boundary with ScalarEvolution: `some v` when
`SE.getBackedgeTakenCount(&L)` is a `SCEVConstant` whose sign-extended
64-bit value is `v`, `none` otherwise. -/

def getTripCount (btc : Option Int) : Int :=
  match btc with
  | none => -1
  | some v =>
    if v ≤ 1 ∨ wrap32 v ≠ v then -1
    else wrap32 (v + 1)

def getTripAlignment (btc : Option Int) : Int :=
  if getTripCount btc > 0 then getTripCount btc else 1

/-- Definition following the words of claim C8 and spec section 4.2,
not the source: the trip alignment "equals the loop's exact trip count
when that trip count is a known non-negative constant that fits a
native signed 32-bit range and is greater than 1, and equals 1 in
every other case". The argument is the exact trip count when known. -/
def claimedTripAlignment (tripCount : Option Int) : Int :=
  match tripCount with
  | none => 1
  | some T => if 0 ≤ T ∧ INT32_MIN ≤ T ∧ T ≤ INT32_MAX ∧ 1 < T then T else 1

/-! ## Loop iteration semantics for the remainder transform (claim C1).

Modelled from the spec: RemainderTransform::createVectorizableLoop
(rv/transform/remTransform.h) is not part of src/.  Spec section 4.3:
the prepared main loop executes whole vector-width chunks of the
original iteration space in original order, and the scalar remainder
loop executes the leftover iterations, also in original order. -/

/-- Modelled from the spec: `runLoop body start n s` executes the loop
body on iteration indices `start, start+1, ..., start+n-1` in original
order, threading the observable state `s`. -/
def runLoop {σ : Type} (body : Nat → σ → σ) : Nat → Nat → σ → σ
  | _, 0, s => s
  | start, Nat.succ k, s => runLoop body (start + 1) k (body start s)

/-- Modelled from the spec: the original loop with trip count `T`
executes iterations `0..T-1`. -/
def runOriginalLoop {σ : Type} (body : Nat → σ → σ) (T : Nat) (s : σ) : σ :=
  runLoop body 0 T s

/-- Modelled from the spec: one main-loop vector iteration of width `W`
with chunk index `j` executes the scalar iterations `j*W .. j*W + W - 1`
in original order. -/
def runVectorIter {σ : Type} (body : Nat → σ → σ) (W j : Nat) (s : σ) : σ :=
  runLoop body (j * W) W s

/-- Modelled from the spec: the prepared main loop executes `m` vector
iterations, chunk indices `0..m-1` in order. -/
def runMainLoop {σ : Type} (body : Nat → σ → σ) (W : Nat) : Nat → σ → σ
  | 0, s => s
  | Nat.succ m, s => runVectorIter body W m (runMainLoop body W m s)

/-- Number of vector iterations the prepared main loop executes. -/
def mainLoopIterations (T W : Nat) : Nat := T / W

/-- Number of scalar iterations the remainder loop executes. -/
def remainderIterations (T W : Nat) : Nat := T % W

/-- Modelled from the spec: the scalar remainder loop executes the
iterations left over after the main loop, `(T/W)*W .. T-1`. -/
def runRemainderLoop {σ : Type} (body : Nat → σ → σ) (W T : Nat) (s : σ) : σ :=
  runLoop body (T / W * W) (T % W) s

/-- Modelled from the spec: the prepared loop nest runs the main loop
first and then the remainder loop. -/
def runPreparedLoop {σ : Type} (body : Nat → σ → σ) (W T : Nat) (s : σ) : σ :=
  runRemainderLoop body W T (runMainLoop body W (T / W) s)

theorem runLoop_add {σ : Type} (body : Nat → σ → σ) (a : Nat) :
    ∀ (b start : Nat) (s : σ),
      runLoop body start (a + b) s = runLoop body (start + a) b (runLoop body start a s) := by
  induction a with
  | zero => intro b start s; simp [runLoop]
  | succ k ih =>
    intro b start s
    have hshift : k + 1 + b = (k + b) + 1 := by omega
    rw [hshift]
    show runLoop body (start + 1) (k + b) (body start s) = _
    rw [ih b (start + 1) (body start s)]
    have h2 : start + 1 + k = start + (k + 1) := by omega
    rw [h2]
    rfl

theorem runMainLoop_eq_runLoop {σ : Type} (body : Nat → σ → σ) (W : Nat) :
    ∀ (m : Nat) (s : σ), runMainLoop body W m s = runLoop body 0 (m * W) s := by
  intro m
  induction m with
  | zero => intro s; simp [runMainLoop, Nat.zero_mul, runLoop]
  | succ k ih =>
    intro s
    show runVectorIter body W k (runMainLoop body W k s) = _
    rw [ih s]
    unfold runVectorIter
    have : (k + 1) * W = k * W + W := by ring
    rw [this, runLoop_add body (k * W) W 0 s]
    simp

/-! ## Loop annotation metadata -/

/-- Modelled from the spec: the `LoopMD` record of
rv/analysis/loopAnnotations.h is not part of src/.  Spec section 3
loop metadata: optional flags `vectorizeEnable` (tri-state),
`alreadyVectorized`, `explicitVectorWidth` (optional positive integer),
`minDepDist` (integer or unbounded/parallel); `safeGet` in the source is
read as `Option.getD`. -/
structure LoopMD where
  vectorizeEnable : Option Bool
  alreadyVectorized : Option Bool
  minDepDist : Option Nat
  explicitVectorWidth : Option Nat
deriving DecidableEq

/-- Modelled from the spec: `ParallelDistance` of
rv/analysis/loopAnnotations.h is not part of src/.  The spec calls a
fully parallel loop one with "unbounded" dependence distance; it is the
largest value of the unsigned 64-bit iteration-distance type. -/
def ParallelDistance : Nat := 2 ^ 64 - 1

/-! ## Reduction descriptors (rv/analysis/reductionAnalysis.h is not in
src/; the shape of a descriptor is reconstructed from its use in
LoopVectorizer.cpp and spec section 3). -/

/-- Modelled from the spec: the reduction-kind tag of a descriptor.
`Top` is Unsupported-Conflicting, `Bot` is Unsupported-NonAffine, and
`Assoc` stands for any supported associative-reduction kind. -/
inductive RedKind where
  | Top
  | Bot
  | Assoc
deriving DecidableEq

/-- One user of a reduction-element instruction, as inspected by
`IsSupportedReduction`: either not an `Instruction` at all, or an
instruction identified by `id` whose parent block is (or is not)
contained in the loop. -/
inductive UserVal where
  | nonInst
  | inst (id : Nat) (inLoop : Bool)
deriving DecidableEq

/-- One element instruction of a reduction descriptor together with its
users. -/
structure RedElement where
  id : Nat
  users : List UserVal
deriving DecidableEq

/-- Modelled from the spec: a reduction descriptor (spec section 3):
the element set of the recurrence rooted at a loop-header phi plus a
kind tag. -/
structure Reduction where
  kind : RedKind
  elements : List RedElement
deriving DecidableEq

def Reduction.elementIds (red : Reduction) : List Nat :=
  red.elements.map (fun e => e.id)

/-- Embedding of the static helper `IsSupportedReduction` of
LoopVectorizer.cpp (src lines 109-126): every user of every element
must be an instruction that is either outside the loop or itself an
element; a non-instruction user, or an in-loop user that is not an
element, makes the reduction unsupported. -/
def IsSupportedReduction (red : Reduction) : Bool :=
  red.elements.all fun e =>
    e.users.all fun u =>
      match u with
      | UserVal.nonInst => false
      | UserVal.inst uid uInLoop => !(uInLoop && !(red.elementIds.contains uid))

/-- A reduction descriptor with a user that is outside the loop and not
an element of the descriptor (the situation claim C5 says must cause
rejection). -/
def hasUseOutsideLoopAndElements (red : Reduction) : Bool :=
  red.elements.any fun e =>
    e.users.any fun u =>
      match u with
      | UserVal.nonInst => false
      | UserVal.inst uid uInLoop => !uInLoop && !(red.elementIds.contains uid)

/-- A reduction descriptor with a non-instruction user or a user inside
the loop that is not an element (the condition the source actually
rejects). -/
def hasBadUser (red : Reduction) : Bool :=
  red.elements.any fun e =>
    e.users.any fun u =>
      match u with
      | UserVal.nonInst => true
      | UserVal.inst uid uInLoop => uInLoop && !(red.elementIds.contains uid)

/-! ## Header phi classification (the loop over the prepared loop's
header phis in LoopVectorizer::vectorizeLoop, src lines 269-315). -/

/-- The result of the reduction analysis for one header phi of the
prepared loop, as consumed by the classification loop: a stride
pattern (`reda->getStrideInfo`), a reduction descriptor
(`reda->getReductionInfo`), or neither. -/
inductive PhiClass where
  | stride
  | red (r : Reduction)
  | noInfo
deriving DecidableEq

/-- Embedding of the header-phi classification loop of
LoopVectorizer::vectorizeLoop (src lines 271-315): a phi with a stride
pattern is accepted; otherwise a missing reduction descriptor, a
descriptor failing `IsSupportedReduction`, or a descriptor of kind
`Top` or `Bot` rejects the loop (returns false), in that source order. -/
def classifyHeaderPhis : List PhiClass → Bool
  | [] => true
  | PhiClass.stride :: rest => classifyHeaderPhis rest
  | PhiClass.noInfo :: _ => false
  | PhiClass.red r :: rest =>
    if !IsSupportedReduction r then false
    else if r.kind = RedKind.Top then false
    else if r.kind = RedKind.Bot then false
    else classifyHeaderPhis rest

/-! ## The loop model and the remainder transform -/

/-- Control-flow shape facts about a loop, as consumed by
`canVectorizeLoop` and the remainder transform.
`hasSingleExiting` is `L.getExitingBlock() != nullptr`;
`exitingIsBranch` is `isa<BranchInst>` on that block's terminator;
`exitingIsTwoWayCondBranch` is that terminator being a two-way
conditional branch; `bodyShapeOk` collects the remaining structural
requirements of the remainder transform (canonical induction variable,
reducible body control flow). -/
structure LoopShape where
  hasSingleExiting : Bool
  exitingIsBranch : Bool
  exitingIsTwoWayCondBranch : Bool
  bodyShapeOk : Bool
deriving DecidableEq

/-- A loop of the analysed function: its `isAnnotatedParallel` flag,
persisted annotation metadata (`GetLoopAnnotation`), the
ScalarEvolution backedge-taken count when constant, its control-flow
shape, and the reduction-analysis results for the header phis of the
prepared loop. -/
structure LoopModel where
  isAnnotatedParallel : Bool
  annot : LoopMD
  btc : Option Int
  shape : LoopShape
  headerPhis : List PhiClass
deriving DecidableEq

/-- The environment-variable inputs of the pass: `RV_DISABLE` (checked
in run) and `RV_FORCE_WIDTH` (`some v` when the variable is set and
`atoi` of its text is `v`). -/
structure EnvModel where
  rvDisable : Bool
  rvForceWidth : Option Int
deriving DecidableEq

/-- Embedding of LoopVectorizer::canVectorizeLoop (src lines 57-69):
annotated parallel, a single exiting block, and a `BranchInst`
terminator.  In the source this helper is not reachable from run(). -/
def canVectorizeLoop (L : LoopModel) : Bool :=
  L.isAnnotatedParallel && L.shape.hasSingleExiting && L.shape.exitingIsBranch

/-- Modelled from the spec: RemainderTransform::createVectorizableLoop
(rv/transform/remTransform.h) is not part of src/.  Per spec sections
4.1 and 4.3 the transform fails, returning null and leaving the IR
unchanged (the transform is atomic per section 5), when the loop lacks
a single exiting block terminated by a two-way conditional branch or
the body shape is otherwise unsupported; the spec states no
precondition on the width or trip-alignment arguments. -/
def createVectorizableLoop (L : LoopModel) (_VectorWidth : Int) (_tripAlign : Int) : Bool :=
  L.shape.hasSingleExiting && L.shape.exitingIsTwoWayCondBranch && L.shape.bodyShapeOk

/-- The annotation record after the `isAnnotatedParallel` override of
LoopVectorizer::vectorizeLoop (src lines 142-145): a parallel loop gets
unbounded dependence distance and `vectorizeEnable = true`. -/
def effectiveAnnot (L : LoopModel) : LoopMD :=
  if L.isAnnotatedParallel then
    { L.annot with minDepDist := some ParallelDistance, vectorizeEnable := some true }
  else L.annot

/-- The initial `int VectorWidth` of LoopVectorizer::vectorizeLoop
(src line 191): the explicit metadata width when set, otherwise the
dependence distance, both narrowed from 64 bits to `int`. -/
def annotWidth (annot : LoopMD) (depDist : Nat) : Int :=
  match annot.explicitVectorWidth with
  | some w => natToInt32 w
  | none => natToInt32 depDist

/-- Embedding of the cost-model refinement of
LoopVectorizer::vectorizeLoop (src lines 202-222): the initial guess is
`depDist` when the current width is zero, else the current width cast
to `size_t`; a refined width of at most 1 is the "vectorization not
beneficial" skip (`none`); a differing refined width replaces the
current one (narrowed `size_t` to `int`). -/
def refineWidthWithCostModel (pickWidth : Nat → Nat) (depDist : Nat) (vw0 : Int) :
    Option Int :=
  if pickWidth (if vw0 = 0 then depDist else intToSizeT vw0) ≤ 1 then none
  else if pickWidth (if vw0 = 0 then depDist else intToSizeT vw0) ≠ intToSizeT vw0 then
    some (natToInt32 (pickWidth (if vw0 = 0 then depDist else intToSizeT vw0)))
  else some vw0

/-- Embedding of the width-selection portion of
LoopVectorizer::vectorizeLoop (src lines 189-222).  Returns whether the
cost model was invoked, and `some` chosen width or `none` for the
"vectorization not beneficial" skip.  `pickWidth` is the cost-model
collaborator `CostModel::pickWidthForRegion` for this loop's region.
The `RV_FORCE_WIDTH` value, when present, overwrites the width and
fixes it, so the cost model runs exactly when neither the environment
override nor the explicit metadata width is present. -/
def selectWidth (env : EnvModel) (pickWidth : Nat → Nat) (annot : LoopMD)
    (depDist : Nat) : Bool × Option Int :=
  match env.rvForceWidth with
  | some u => (false, some u)
  | none =>
    if annot.explicitVectorWidth.isSome then (false, some (annotWidth annot depDist))
    else (true, refineWidthWithCostModel pickWidth depDist (annotWidth annot depDist))

/-- The observable outcome of LoopVectorizer::vectorizeLoop on one
loop: the boolean return value, whether the cost model was invoked,
the width passed on to the transform (when width selection completed),
whether the remainder transform committed (mutating the IR), and
whether the loop metadata setter persisted `alreadyVectorized = true`
on the original loop (src lines 242-245). -/
structure VecOutcome where
  vectorized : Bool
  costModelUsed : Bool
  finalWidth : Option Int
  transformed : Bool
  annotWritten : Bool
deriving DecidableEq

def skipOutcome : VecOutcome :=
  { vectorized := false, costModelUsed := false, finalWidth := none,
    transformed := false, annotWritten := false }

/-- The local `iter_t depDist` of LoopVectorizer::vectorizeLoop
(src line 165): the effective minimum dependence distance, defaulting
to the unbounded parallel distance. -/
def effDepDist (L : LoopModel) : Nat :=
  (effectiveAnnot L).minDepDist.getD ParallelDistance

/-- Embedding of LoopVectorizer::vectorizeLoop (src lines 128-382):
the gates (vectorizeEnable, alreadyVectorized, dependence distance),
width selection, the remainder transform, the metadata writes that
follow a successful transform, and the header-phi classification.  The
generic vectorization engine is an external collaborator; per spec
section 4.5 it is assumed to succeed on a legally classified, prepared
loop (its failure would abort the compilation, not return). -/
def vectorizeLoop (env : EnvModel) (pickWidth : Nat → Nat) (L : LoopModel) : VecOutcome :=
  if !((effectiveAnnot L).vectorizeEnable.getD false) then skipOutcome
  else if (effectiveAnnot L).alreadyVectorized.getD false then skipOutcome
  else if effDepDist L ≤ 1 then skipOutcome
  else
    match selectWidth env pickWidth (effectiveAnnot L) (effDepDist L) with
    | (cm, none) =>
      { vectorized := false, costModelUsed := cm, finalWidth := none,
        transformed := false, annotWritten := false }
    | (cm, some vw) =>
      if !createVectorizableLoop L vw (getTripAlignment L.btc) then
        { vectorized := false, costModelUsed := cm, finalWidth := some vw,
          transformed := false, annotWritten := false }
      else if !classifyHeaderPhis L.headerPhis then
        { vectorized := false, costModelUsed := cm, finalWidth := some vw,
          transformed := true, annotWritten := true }
      else
        { vectorized := true, costModelUsed := cm, finalWidth := some vw,
          transformed := true, annotWritten := true }

/-! ## Loop-nest traversal and run() -/

mutual
inductive LoopTree : Type where
  | node : LoopModel → LoopForest → LoopTree
inductive LoopForest : Type where
  | nil : LoopForest
  | cons : LoopTree → LoopForest → LoopForest
end

mutual
/-- Embedding of LoopVectorizer::vectorizeLoopOrSubLoops (src lines
384-396): try the loop itself; on failure, try every immediate
sub-loop, or-accumulating the changed flag. -/
def vectorizeLoopOrSubLoops (env : EnvModel) (pickWidth : Nat → Nat) : LoopTree → Bool
  | LoopTree.node L subs =>
    if (vectorizeLoop env pickWidth L).vectorized then true
    else vlosForest env pickWidth subs
def vlosForest (env : EnvModel) (pickWidth : Nat → Nat) : LoopForest → Bool
  | LoopForest.nil => false
  | LoopForest.cons t ts =>
    vectorizeLoopOrSubLoops env pickWidth t || vlosForest env pickWidth ts
end

mutual
/-- The loops on which vectorizeLoop is invoked during the traversal,
in visit order. -/
def visitedTree (env : EnvModel) (pickWidth : Nat → Nat) : LoopTree → List LoopModel
  | LoopTree.node L subs =>
    if (vectorizeLoop env pickWidth L).vectorized then [L]
    else L :: visitedForest env pickWidth subs
def visitedForest (env : EnvModel) (pickWidth : Nat → Nat) : LoopForest → List LoopModel
  | LoopForest.nil => []
  | LoopForest.cons t ts =>
    visitedTree env pickWidth t ++ visitedForest env pickWidth ts
end

mutual
/-- All loops of a loop nest. -/
def treeLoops : LoopTree → List LoopModel
  | LoopTree.node L subs => L :: forestLoops subs
def forestLoops : LoopForest → List LoopModel
  | LoopForest.nil => []
  | LoopForest.cons t ts => treeLoops t ++ forestLoops ts
end

/-! ## hipSYCL kernel detection (src/src/annotations.cpp lines 69-86)
and run() -/

/-- One entry of an `llvm.global.annotations` array: the annotated
function and the annotation C-string. -/
structure AnnotEntry where
  funcId : Nat
  text : String
deriving DecidableEq

/-- A module-level global variable as inspected by IsHipSYCLKernel:
its name and, when it is an annotation array, its entries. -/
structure GlobalVar where
  name : String
  entries : List AnnotEntry
deriving DecidableEq

/-- The module containing the function: its global variables. -/
structure ModuleModel where
  globals : List GlobalVar
deriving DecidableEq

/-- Embedding of rv::IsHipSYCLKernel (src/src/annotations.cpp lines
69-86): scan the module's globals for `llvm.global.annotations` and
return true exactly when some entry annotates this function with the
string `hipsycl_nd_kernel`. -/
def IsHipSYCLKernel (M : ModuleModel) (fid : Nat) : Bool :=
  M.globals.any fun g =>
    g.name == "llvm.global.annotations" &&
      g.entries.any fun e => e.text == "hipsycl_nd_kernel" && e.funcId == fid

/-- A function: its identity (for annotation lookup) and its top-level
loop forest from LoopInfo. -/
structure FunctionModel where
  fid : Nat
  loopForest : LoopForest

/-- Embedding of LoopVectorizer::run (src lines 408-469): bail out on
`RV_DISABLE`, bail out unless the function is a hipSYCL nd-kernel,
otherwise traverse the top-level loops.  Returns the changed flag and
the list of loops on which vectorizeLoop was invoked. -/
def run (env : EnvModel) (pickWidth : Nat → Nat) (M : ModuleModel)
    (F : FunctionModel) : Bool × List LoopModel :=
  if env.rvDisable then (false, [])
  else if !IsHipSYCLKernel M F.fid then (false, [])
  else (vlosForest env pickWidth F.loopForest, visitedForest env pickWidth F.loopForest)

/-! ## Derived notions named by the claims -/

/-- The width an override fixes: the `RV_FORCE_WIDTH` value when the
environment variable is set (it overwrites any metadata width, src
lines 194-199), otherwise the explicit metadata width. -/
def overrideWidth (env : EnvModel) (annot : LoopMD) : Int :=
  match env.rvForceWidth with
  | some u => u
  | none => natToInt32 (annot.explicitVectorWidth.getD 0)

/-! ## Concrete fixtures used by counterexamples and witnesses -/

/-- A well-formed loop shape: single exiting block with a two-way
conditional branch and a supported body. -/
def goodShape : LoopShape :=
  { hasSingleExiting := true, exitingIsBranch := true,
    exitingIsTwoWayCondBranch := true, bodyShapeOk := true }

/-- Metadata enabling vectorization with dependence distance 8 and no
explicit width. -/
def enabledMD : LoopMD :=
  { vectorizeEnable := some true, alreadyVectorized := none,
    minDepDist := some 8, explicitVectorWidth := none }

/-- A plain vectorizable loop: enabled, dependence distance 8, good
shape, one strided induction header phi. -/
def loopPlain : LoopModel :=
  { isAnnotatedParallel := false, annot := enabledMD, btc := none,
    shape := goodShape, headerPhis := [PhiClass.stride] }

/-- No environment variables set. -/
def envPlain : EnvModel := { rvDisable := false, rvForceWidth := none }

/-- Environment with `RV_FORCE_WIDTH=4`. -/
def envForce4 : EnvModel := { rvDisable := false, rvForceWidth := some 4 }

/-- Environment with `RV_FORCE_WIDTH=0` (atoi of a zero or non-numeric text). -/
def envForce0 : EnvModel := { rvDisable := false, rvForceWidth := some 0 }

/-- A cost model that always picks width 4. -/
def pick4 : Nat → Nat := fun _ => 4

/-- The plain loop with an explicit metadata width of 8. -/
def loopExplicit8 : LoopModel :=
  { loopPlain with annot := { enabledMD with explicitVectorWidth := some 8 } }

/-- A reduction descriptor of conflicting kind (`Top`) with a single
element and no users. -/
def redTop : Reduction :=
  { kind := RedKind.Top, elements := [{ id := 0, users := [] }] }

/-- The plain loop whose single header phi carries the conflicting
reduction descriptor. -/
def loopRedTop : LoopModel := { loopPlain with headerPhis := [PhiClass.red redTop] }

/-- An associative reduction descriptor whose only user is an
instruction outside the loop that is not an element. -/
def redOutsideUse : Reduction :=
  { kind := RedKind.Assoc, elements := [{ id := 0, users := [UserVal.inst 42 false] }] }

/-- The plain loop whose single header phi carries `redOutsideUse`. -/
def loopRedOutside : LoopModel :=
  { loopPlain with headerPhis := [PhiClass.red redOutsideUse] }

/-- An associative reduction descriptor with an in-loop user that is
not an element. -/
def redInLoopUse : Reduction :=
  { kind := RedKind.Assoc, elements := [{ id := 0, users := [UserVal.inst 7 true] }] }

/-- The plain loop whose single header phi carries `redInLoopUse`. -/
def loopRedInLoopUse : LoopModel :=
  { loopPlain with headerPhis := [PhiClass.red redInLoopUse] }

/-- The plain loop with a single exiting block whose terminator is not
a two-way conditional branch. -/
def loopBadExit : LoopModel :=
  { loopPlain with shape :=
    { hasSingleExiting := true, exitingIsBranch := true,
      exitingIsTwoWayCondBranch := false, bodyShapeOk := true } }

/-- The plain loop with recorded minimum dependence distance 1. -/
def loopDepDist1 : LoopModel :=
  { loopPlain with annot := { enabledMD with minDepDist := some 1 } }

/-- A module with no globals at all (no hipSYCL kernel marker). -/
def moduleEmpty : ModuleModel := { globals := [] }

/-- A module whose annotation table marks function 0 as a hipSYCL
nd-kernel. -/
def moduleKernel : ModuleModel :=
  { globals := [{ name := "llvm.global.annotations",
                  entries := [{ funcId := 0, text := "hipsycl_nd_kernel" }] }] }

/-- Function 0 with a single top-level loop. -/
def funcKernel : FunctionModel :=
  { fid := 0,
    loopForest := LoopForest.cons (LoopTree.node loopPlain LoopForest.nil) LoopForest.nil }

/-! ## Helper lemmas -/

theorem effectiveAnnot_explicitWidth (L : LoopModel) :
    (effectiveAnnot L).explicitVectorWidth = L.annot.explicitVectorWidth := by
  unfold effectiveAnnot
  split <;> rfl

theorem selectWidth_fixed (env : EnvModel) (pick : Nat → Nat) (annot : LoopMD) (dd : Nat)
    (h : (annot.explicitVectorWidth.isSome || env.rvForceWidth.isSome) = true) :
    selectWidth env pick annot dd = (false, some (overrideWidth env annot)) := by
  unfold selectWidth overrideWidth
  cases henv : env.rvForceWidth with
  | some u => rfl
  | none =>
    cases hex : annot.explicitVectorWidth with
    | none => rw [henv, hex] at h; simp at h
    | some w => simp [annotWidth, hex]

theorem isSupported_false_of_hasBadUser (r : Reduction) (h : hasBadUser r = true) :
    IsSupportedReduction r = false := by
  cases hA : IsSupportedReduction r with
  | false => rfl
  | true =>
    exfalso
    unfold hasBadUser at h
    unfold IsSupportedReduction at hA
    rw [List.any_eq_true] at h
    obtain ⟨e, he, hu⟩ := h
    rw [List.any_eq_true] at hu
    obtain ⟨u, hu2, hg⟩ := hu
    rw [List.all_eq_true] at hA
    have h1 := hA e he
    rw [List.all_eq_true] at h1
    have h2 := h1 u hu2
    cases u with
    | nonInst => simp at h2
    | inst uid uInLoop => simp at h2 hg; simp [hg.1, hg.2] at h2

theorem classify_false_of_bad_red (r : Reduction) (hsup : IsSupportedReduction r = false) :
    ∀ phis : List PhiClass, PhiClass.red r ∈ phis → classifyHeaderPhis phis = false := by
  intro phis
  induction phis with
  | nil => intro hmem; cases hmem
  | cons p rest ih =>
    intro hmem
    cases p with
    | stride =>
      rcases List.mem_cons.mp hmem with h3 | h3
      · cases h3
      · simpa [classifyHeaderPhis] using ih h3
    | noInfo => simp [classifyHeaderPhis]
    | red r2 =>
      rcases List.mem_cons.mp hmem with h3 | h3
      · have hr : r = r2 := by injection h3
        subst hr
        simp [classifyHeaderPhis, hsup]
      · by_cases hs : IsSupportedReduction r2
        · by_cases ht : r2.kind = RedKind.Top
          · simp [classifyHeaderPhis, hs, ht]
          · by_cases hb : r2.kind = RedKind.Bot
            · simp [classifyHeaderPhis, hs, ht, hb]
            · simpa [classifyHeaderPhis, hs, ht, hb] using ih h3
        · simp [classifyHeaderPhis, Bool.of_not_eq_true hs]

theorem vectorizeLoop_cases (env : EnvModel) (pick : Nat → Nat) (L : LoopModel) :
    vectorizeLoop env pick L = skipOutcome ∨
    (∃ cm, vectorizeLoop env pick L =
      { vectorized := false, costModelUsed := cm, finalWidth := none,
        transformed := false, annotWritten := false }) ∨
    (∃ cm vw, vectorizeLoop env pick L =
      { vectorized := false, costModelUsed := cm, finalWidth := some vw,
        transformed := false, annotWritten := false }) ∨
    (classifyHeaderPhis L.headerPhis = false ∧ ∃ cm vw, vectorizeLoop env pick L =
      { vectorized := false, costModelUsed := cm, finalWidth := some vw,
        transformed := true, annotWritten := true }) ∨
    (classifyHeaderPhis L.headerPhis = true ∧ ∃ cm vw, vectorizeLoop env pick L =
      { vectorized := true, costModelUsed := cm, finalWidth := some vw,
        transformed := true, annotWritten := true }) := by
  unfold vectorizeLoop
  split
  · exact Or.inl rfl
  split
  · exact Or.inl rfl
  split
  · exact Or.inl rfl
  split
  · exact Or.inr (Or.inl ⟨_, rfl⟩)
  split
  · exact Or.inr (Or.inr (Or.inl ⟨_, _, rfl⟩))
  split
  next hcl =>
    refine Or.inr (Or.inr (Or.inr (Or.inl ⟨?_, _, _, rfl⟩)))
    simpa using hcl
  next hcl =>
    refine Or.inr (Or.inr (Or.inr (Or.inr ⟨?_, _, _, rfl⟩)))
    simpa using hcl

theorem finalWidth_from_selectWidth (env : EnvModel) (pick : Nat → Nat) (L : LoopModel)
    (w : Int) (hw : (vectorizeLoop env pick L).finalWidth = some w) :
    (selectWidth env pick (effectiveAnnot L) (effDepDist L)).2 = some w := by
  unfold vectorizeLoop at hw
  split at hw
  · simp [skipOutcome] at hw
  split at hw
  · simp [skipOutcome] at hw
  split at hw
  · simp [skipOutcome] at hw
  rcases hsel : selectWidth env pick (effectiveAnnot L) (effDepDist L) with ⟨cm, wopt⟩
  rw [hsel] at hw
  cases wopt with
  | none => simp at hw
  | some vw =>
    simp only at hw ⊢
    split at hw
    · exact hw
    split at hw
    · exact hw
    · exact hw

theorem refineWidth_pos (pick : Nat → Nat) (dd : Nat) (vw0 : Int) (w : Int)
    (hpick : ∀ n, pick n < 2 ^ 31)
    (hvw0 : -(2 ^ 31) ≤ vw0 ∧ vw0 < 2 ^ 31)
    (h : refineWidthWithCostModel pick dd vw0 = some w) : 1 ≤ w := by
  unfold refineWidthWithCostModel at h
  set r := pick (if vw0 = 0 then dd else intToSizeT vw0) with hr
  have hrb : r < 2 ^ 31 := hpick _
  split at h
  · exact absurd h (by simp)
  next h1 =>
    split at h
    next h2 =>
      have h3 : natToInt32 r = w := Option.some.inj h
      have h4 : natToInt32 r = (r : Int) := natToInt32_eq_self r hrb
      omega
    next h2 =>
      have hw0 : vw0 = w := Option.some.inj h
      have hreq : r = intToSizeT vw0 := by
        by_contra hcon
        exact h2 hcon
      by_cases hs : 0 ≤ vw0
      · have hsz : intToSizeT vw0 = vw0.toNat := by
          unfold intToSizeT
          rw [Int.emod_eq_of_lt hs (by omega)]
        rw [hsz] at hreq
        omega
      · exfalso
        have hp64 : (2 : Int) ^ 64 = 18446744073709551616 := by norm_num
        have hmod : vw0 % 2 ^ 64 = vw0 + 2 ^ 64 := by
          rw [hp64]
          omega
        have hsz : (intToSizeT vw0 : Int) = vw0 + 2 ^ 64 := by
          unfold intToSizeT
          rw [hmod]
          rw [Int.toNat_of_nonneg (by omega)]
        rw [hreq] at hrb
        have : ((intToSizeT vw0 : Nat) : Int) < 2 ^ 31 := by exact_mod_cast hrb
        omega

theorem selectWidth_pos (env : EnvModel) (pick : Nat → Nat) (annot : LoopMD) (dd : Nat)
    (w : Int)
    (henv : ∀ u, env.rvForceWidth = some u → 1 ≤ u)
    (hex : ∀ x, annot.explicitVectorWidth = some x → 1 ≤ x ∧ x < 2 ^ 31)
    (hpick : ∀ n, pick n < 2 ^ 31)
    (hsel : (selectWidth env pick annot dd).2 = some w) : 1 ≤ w := by
  unfold selectWidth at hsel
  cases henv2 : env.rvForceWidth with
  | some u =>
    rw [henv2] at hsel
    simp only at hsel
    have : u = w := Option.some.inj hsel
    have := henv u henv2
    omega
  | none =>
    rw [henv2] at hsel
    simp only at hsel
    split at hsel
    next hx =>
      cases hex2 : annot.explicitVectorWidth with
      | none => rw [hex2] at hx; simp at hx
      | some x =>
        simp only at hsel
        have hval0 : annotWidth annot dd = w := Option.some.inj hsel
        have hval : natToInt32 x = w := by
          rw [← hval0]
          unfold annotWidth
          rw [hex2]
        obtain ⟨hx1, hx2⟩ := hex x hex2
        have h4 : natToInt32 x = (x : Int) := natToInt32_eq_self x hx2
        omega
    next hx =>
      simp only at hsel
      refine refineWidth_pos pick dd (annotWidth annot dd) w hpick ?_ hsel
      unfold annotWidth
      cases annot.explicitVectorWidth with
      | some x => exact (wrap32_nonneg_bound _)
      | none => exact (wrap32_nonneg_bound _)

mutual
theorem vlos_eq_true_iff (env : EnvModel) (pick : Nat → Nat) :
    (t : LoopTree) → (vectorizeLoopOrSubLoops env pick t = true ↔
      ∃ L, L ∈ treeLoops t ∧ (vectorizeLoop env pick L).vectorized = true)
  | LoopTree.node L subs => by
    have ih := vlosForest_eq_true_iff env pick subs
    unfold vectorizeLoopOrSubLoops treeLoops
    by_cases h : (vectorizeLoop env pick L).vectorized = true
    · simp only [h, if_true]
      constructor
      · intro _
        exact ⟨L, List.mem_cons_self L _, h⟩
      · intro _
        trivial
    · have hb : (vectorizeLoop env pick L).vectorized = false := by
        cases hx : (vectorizeLoop env pick L).vectorized
        · rfl
        · exact absurd hx h
      simp only [hb, Bool.false_eq_true, if_false]
      rw [ih]
      constructor
      · rintro ⟨L2, hmem, hv⟩
        exact ⟨L2, List.mem_cons_of_mem _ hmem, hv⟩
      · rintro ⟨L2, hmem, hv⟩
        rcases List.mem_cons.mp hmem with h1 | h1
        · subst h1
          exact absurd hv h
        · exact ⟨L2, h1, hv⟩
theorem vlosForest_eq_true_iff (env : EnvModel) (pick : Nat → Nat) :
    (ts : LoopForest) → (vlosForest env pick ts = true ↔
      ∃ L, L ∈ forestLoops ts ∧ (vectorizeLoop env pick L).vectorized = true)
  | LoopForest.nil => by
    unfold vlosForest forestLoops
    simp
  | LoopForest.cons t ts => by
    have ih1 := vlos_eq_true_iff env pick t
    have ih2 := vlosForest_eq_true_iff env pick ts
    unfold vlosForest forestLoops
    rw [Bool.or_eq_true, ih1, ih2]
    constructor
    · rintro (⟨L, hm, hv⟩ | ⟨L, hm, hv⟩)
      · exact ⟨L, List.mem_append_left _ hm, hv⟩
      · exact ⟨L, List.mem_append_right _ hm, hv⟩
    · rintro ⟨L, hm, hv⟩
      rcases List.mem_append.mp hm with h1 | h1
      · exact Or.inl ⟨L, h1, hv⟩
      · exact Or.inr ⟨L, h1, hv⟩
end

/-! ## Claim theorems -/

/-- C1: for a loop with known constant trip count `T ≥ 0` and chosen
width `W ≥ 1`, the loop produced by the remainder transform executes
`T / W` main-loop vector iterations followed by `T % W` scalar
remainder iterations, the two counts sum to `T`, and executing the
prepared main loop followed by the remainder loop in original
iteration order is observably equivalent to executing the original
loop. -/
theorem c1_trip_count_correct (σ : Type) (body : Nat → σ → σ) (s : σ) (T W : Nat)
    (hW : 1 ≤ W) :
    mainLoopIterations T W = T / W ∧
    remainderIterations T W = T % W ∧
    W * mainLoopIterations T W + remainderIterations T W = T ∧
    runPreparedLoop body W T s = runOriginalLoop body T s := by
  refine ⟨rfl, rfl, Nat.div_add_mod T W, ?_⟩
  unfold runPreparedLoop runRemainderLoop runOriginalLoop
  rw [runMainLoop_eq_runLoop]
  have hadd := runLoop_add body (T / W * W) (T % W) 0 s
  rw [Nat.zero_add] at hadd
  rw [← hadd]
  have hT : T / W * W + T % W = T := by
    rw [Nat.mul_comm]
    exact Nat.div_add_mod T W
  rw [hT]

/-- C1 witness: the property at `T = 7`, `W = 3` over a concrete
accumulating body. -/
theorem c1_trip_count_correct_witness :
    1 ≤ 3 ∧
    (mainLoopIterations 7 3 = 7 / 3 ∧
     remainderIterations 7 3 = 7 % 3 ∧
     3 * mainLoopIterations 7 3 + remainderIterations 7 3 = 7 ∧
     runPreparedLoop (fun i s => s + i) 3 7 0 = runOriginalLoop (fun i s => s + i) 7 0) :=
  ⟨by decide, c1_trip_count_correct Nat (fun i s => s + i) 0 7 3 (by decide)⟩

/-- C2 counterexample: a loop whose metadata carries the explicit
width 8 while `RV_FORCE_WIDTH=4` is set ends up with final width 4,
not the metadata value 8, so the explicit metadata width is not used
verbatim as the final width. -/
theorem c2_explicit_width_cex :
    loopExplicit8.annot.explicitVectorWidth = some 8 ∧
    envForce4.rvForceWidth = some 4 ∧
    (vectorizeLoop envForce4 pick4 loopExplicit8).vectorized = true ∧
    (vectorizeLoop envForce4 pick4 loopExplicit8).finalWidth = some 4 ∧
    (4 : Int) ≠ 8 := by decide

/-- C2 (amended): if an explicit vector width is set (via the loop
metadata or via the `RV_FORCE_WIDTH` environment override) then the
cost model is never invoked for that loop and any final chosen width
equals the `RV_FORCE_WIDTH` value when that override is present,
otherwise the explicit metadata width; the metadata width is used
verbatim only when no environment override is set. -/
theorem c2_override_width_amended (env : EnvModel) (pick : Nat → Nat) (L : LoopModel)
    (h : (L.annot.explicitVectorWidth.isSome || env.rvForceWidth.isSome) = true) :
    (vectorizeLoop env pick L).costModelUsed = false ∧
    ∀ w : Int, (vectorizeLoop env pick L).finalWidth = some w →
      w = overrideWidth env L.annot := by
  have hx := effectiveAnnot_explicitWidth L
  have h2 : ((effectiveAnnot L).explicitVectorWidth.isSome || env.rvForceWidth.isSome)
      = true := by rw [hx]; exact h
  have hsel := selectWidth_fixed env pick (effectiveAnnot L) (effDepDist L) h2
  have hov : overrideWidth env (effectiveAnnot L) = overrideWidth env L.annot := by
    unfold overrideWidth
    rw [hx]
  rw [hov] at hsel
  unfold vectorizeLoop
  rw [hsel]
  split
  · exact ⟨rfl, fun w hw => by simp [skipOutcome] at hw⟩
  split
  · exact ⟨rfl, fun w hw => by simp [skipOutcome] at hw⟩
  split
  · exact ⟨rfl, fun w hw => by simp [skipOutcome] at hw⟩
  simp only
  split
  · exact ⟨rfl, fun w hw => (Option.some.inj hw).symm⟩
  split
  · exact ⟨rfl, fun w hw => (Option.some.inj hw).symm⟩
  · exact ⟨rfl, fun w hw => (Option.some.inj hw).symm⟩

/-- C2 witness: the amended theorem applied to a loop with explicit
metadata width 8 and no environment override. -/
theorem c2_override_width_amended_witness :
    (loopExplicit8.annot.explicitVectorWidth.isSome || envPlain.rvForceWidth.isSome) = true ∧
    (vectorizeLoop envPlain pick4 loopExplicit8).costModelUsed = false :=
  ⟨by decide, (c2_override_width_amended envPlain pick4 loopExplicit8 (by decide)).1⟩

/-- C3: for every function that is not annotated as a hipSYCL
nd-kernel, run() returns false and visits no loop at all, leaving the
function unchanged. -/
theorem c3_non_kernel_no_change (env : EnvModel) (pick : Nat → Nat) (M : ModuleModel)
    (F : FunctionModel) (h : IsHipSYCLKernel M F.fid = false) :
    run env pick M F = (false, []) := by
  simp [run, h]

/-- C3 witness: a module without the hipSYCL marker; the single loop
of the function would vectorize, yet run() reports no change and
visits nothing. -/
theorem c3_non_kernel_no_change_witness :
    IsHipSYCLKernel moduleEmpty funcKernel.fid = false ∧
    run envPlain pick4 moduleEmpty funcKernel = (false, []) :=
  ⟨by decide, c3_non_kernel_no_change envPlain pick4 moduleEmpty funcKernel (by decide)⟩

/-- C4 counterexample: a loop rejected for an unsupported reduction
shape (a conflicting-kind descriptor on a header phi) is not left
unmodified: vectorizeLoop returns false, yet the remainder transform
has already committed and `alreadyVectorized` has been persisted on
the loop. -/
theorem c4_class_skip_mutates_cex :
    (vectorizeLoop envPlain pick4 loopRedTop).vectorized = false ∧
    (vectorizeLoop envPlain pick4 loopRedTop).transformed = true ∧
    (vectorizeLoop envPlain pick4 loopRedTop).annotWritten = true := by decide

/-- C4 (amended): every skip rejection returns false and still lets
sibling and sub-loops be attempted (the node's immediate sub-loops are
all visited); rejections arising before or in the remainder transform
(legality gates, cost model, unsupported loop shape) leave the loop
unmodified, but rejections during header-phi classification
(unsupported reduction or induction shape) occur after the transform
has committed and the `alreadyVectorized` flag has been persisted, so
those leave the loop in its transformed state. -/
theorem c4_skip_policy_amended (env : EnvModel) (pick : Nat → Nat) (L : LoopModel)
    (subs : LoopForest) (h : (vectorizeLoop env pick L).vectorized = false) :
    (((vectorizeLoop env pick L).transformed = false ∧
      (vectorizeLoop env pick L).annotWritten = false) ∨
     (classifyHeaderPhis L.headerPhis = false ∧
      (vectorizeLoop env pick L).transformed = true ∧
      (vectorizeLoop env pick L).annotWritten = true)) ∧
    visitedTree env pick (LoopTree.node L subs) = L :: visitedForest env pick subs := by
  constructor
  · rcases vectorizeLoop_cases env pick L with hc | ⟨cm, hc⟩ | ⟨cm, vw, hc⟩ |
      ⟨hcl, cm, vw, hc⟩ | ⟨hcl, cm, vw, hc⟩
    · rw [hc]
      exact Or.inl ⟨rfl, rfl⟩
    · rw [hc]
      exact Or.inl ⟨rfl, rfl⟩
    · rw [hc]
      exact Or.inl ⟨rfl, rfl⟩
    · rw [hc]
      exact Or.inr ⟨hcl, rfl, rfl⟩
    · rw [hc] at h
      simp at h
  · unfold visitedTree
    simp [h]

/-- C4 witness: the amended theorem applied to a dependence-gate skip
(distance 1): the loop is left unmodified and its (empty) sub-loop
list is still traversed. -/
theorem c4_skip_policy_amended_witness :
    (vectorizeLoop envPlain pick4 loopDepDist1).vectorized = false ∧
    ((((vectorizeLoop envPlain pick4 loopDepDist1).transformed = false ∧
       (vectorizeLoop envPlain pick4 loopDepDist1).annotWritten = false) ∨
      (classifyHeaderPhis loopDepDist1.headerPhis = false ∧
       (vectorizeLoop envPlain pick4 loopDepDist1).transformed = true ∧
       (vectorizeLoop envPlain pick4 loopDepDist1).annotWritten = true)) ∧
     visitedTree envPlain pick4 (LoopTree.node loopDepDist1 LoopForest.nil) =
       loopDepDist1 :: visitedForest envPlain pick4 LoopForest.nil) :=
  ⟨by decide, c4_skip_policy_amended envPlain pick4 loopDepDist1 LoopForest.nil (by decide)⟩

/-- C5 counterexample: a reduction descriptor whose only user is
outside the loop and outside the element set does not cause rejection:
the loop vectorizes.  The source only rejects users that are inside
the loop without being elements. -/
theorem c5_outside_use_cex :
    hasUseOutsideLoopAndElements redOutsideUse = true ∧
    (PhiClass.red redOutsideUse) ∈ loopRedOutside.headerPhis ∧
    IsSupportedReduction redOutsideUse = true ∧
    (vectorizeLoop envPlain pick4 loopRedOutside).vectorized = true := by decide

/-- C5 (amended): for every reduction descriptor attached to a header
phi that has a non-instruction user, or a user inside the loop that is
not itself an element of the descriptor, the loop is rejected and
never vectorized. -/
theorem c5_reduction_legality_amended (env : EnvModel) (pick : Nat → Nat) (L : LoopModel)
    (r : Reduction) (hmem : PhiClass.red r ∈ L.headerPhis) (hbad : hasBadUser r = true) :
    (vectorizeLoop env pick L).vectorized = false := by
  have hsup : IsSupportedReduction r = false := isSupported_false_of_hasBadUser r hbad
  have hcl : classifyHeaderPhis L.headerPhis = false :=
    classify_false_of_bad_red r hsup L.headerPhis hmem
  rcases vectorizeLoop_cases env pick L with hc | ⟨cm, hc⟩ | ⟨cm, vw, hc⟩ |
    ⟨_, cm, vw, hc⟩ | ⟨hcl2, _⟩
  · rw [hc]
    rfl
  · rw [hc]
  · rw [hc]
  · rw [hc]
  · rw [hcl] at hcl2
    simp at hcl2

/-- C5 witness: the amended theorem applied to a descriptor with an
in-loop user that is not an element. -/
theorem c5_reduction_legality_amended_witness :
    (PhiClass.red redInLoopUse) ∈ loopRedInLoopUse.headerPhis ∧
    hasBadUser redInLoopUse = true ∧
    (vectorizeLoop envPlain pick4 loopRedInLoopUse).vectorized = false :=
  ⟨by decide, by decide,
    c5_reduction_legality_amended envPlain pick4 loopRedInLoopUse redInLoopUse
      (by decide) (by decide)⟩

/-- C6: for every loop that lacks a single exiting block terminated by
a two-way conditional branch, the pass rejects the loop: vectorizeLoop
returns false, the remainder transform does not commit, and no
metadata is written. -/
theorem c6_bad_exit_shape_skipped (env : EnvModel) (pick : Nat → Nat) (L : LoopModel)
    (h : (L.shape.hasSingleExiting && L.shape.exitingIsTwoWayCondBranch) = false) :
    (vectorizeLoop env pick L).vectorized = false ∧
    (vectorizeLoop env pick L).transformed = false ∧
    (vectorizeLoop env pick L).annotWritten = false := by
  have hct : ∀ vw ta, createVectorizableLoop L vw ta = false := by
    intro vw ta
    unfold createVectorizableLoop
    cases h1 : L.shape.hasSingleExiting <;>
      cases h2 : L.shape.exitingIsTwoWayCondBranch <;> simp_all
  unfold vectorizeLoop
  split
  · exact ⟨rfl, rfl, rfl⟩
  split
  · exact ⟨rfl, rfl, rfl⟩
  split
  · exact ⟨rfl, rfl, rfl⟩
  split
  · exact ⟨rfl, rfl, rfl⟩
  simp [hct]

/-- C6 witness: the theorem applied to a loop whose single exiting
block ends in a non-conditional branch. -/
theorem c6_bad_exit_shape_skipped_witness :
    (loopBadExit.shape.hasSingleExiting && loopBadExit.shape.exitingIsTwoWayCondBranch)
      = false ∧
    (vectorizeLoop envPlain pick4 loopBadExit).vectorized = false :=
  ⟨by decide, (c6_bad_exit_shape_skipped envPlain pick4 loopBadExit (by decide)).1⟩

/-- C7: for every loop whose recorded minimum dependence distance is
at most 1 and which is not annotated fully parallel, vectorizeLoop
produces exactly the skip outcome: it returns false with no cost-model
use, no width, no transform and no metadata write. -/
theorem c7_dep_dist_gate (env : EnvModel) (pick : Nat → Nat) (L : LoopModel) (d : Nat)
    (hpar : L.isAnnotatedParallel = false) (hmd : L.annot.minDepDist = some d)
    (hd : d ≤ 1) :
    vectorizeLoop env pick L = skipOutcome := by
  have heff : effectiveAnnot L = L.annot := by
    unfold effectiveAnnot
    rw [hpar]
    simp
  have hdd : effDepDist L = d := by
    unfold effDepDist
    rw [heff, hmd]
    rfl
  unfold vectorizeLoop
  split
  · rfl
  split
  · rfl
  split
  · rfl
  next h3 =>
    exact absurd (by rw [hdd]; exact hd) h3

/-- C7 witness: the theorem applied to a loop with recorded distance 1. -/
theorem c7_dep_dist_gate_witness :
    loopDepDist1.isAnnotatedParallel = false ∧
    loopDepDist1.annot.minDepDist = some 1 ∧
    vectorizeLoop envPlain pick4 loopDepDist1 = skipOutcome :=
  ⟨rfl, rfl, c7_dep_dist_gate envPlain pick4 loopDepDist1 1 rfl rfl (by decide)⟩

/-- C8 counterexample: a loop with known constant backedge-taken count
1, hence exact trip count 2, which is a non-negative constant fitting
signed 32 bits and greater than 1: the claim predicts alignment 2, but
the source computes alignment 1 (it requires the backedge-taken count,
not the trip count, to exceed 1). -/
theorem c8_trip_alignment_cex :
    getTripCount (some 1) = -1 ∧
    getTripAlignment (some 1) = 1 ∧
    claimedTripAlignment (some (1 + 1)) = 2 ∧
    (1 : Int) ≠ 2 := by decide

/-- C8 (amended): the computed trip alignment equals the exact trip
count `v + 1` when the backedge-taken count is a known constant `v`
with `1 < v < 2^31 - 1` (that is, a known constant trip count greater
than 2 whose predecessor fits a native signed 32-bit int without the
successor overflowing), and equals 1 in every other case. -/
theorem c8_trip_alignment_amended (btc : Option Int) :
    getTripAlignment btc =
      match btc with
      | none => 1
      | some v => if 1 < v ∧ v < 2 ^ 31 - 1 then v + 1 else 1 := by
  cases btc with
  | none => rfl
  | some v =>
    by_cases h1 : v ≤ 1
    · simp only [getTripAlignment, getTripCount]
      rw [if_pos (Or.inl h1)]
      rw [if_neg (by omega : ¬((1:Int) < v ∧ v < 2 ^ 31 - 1))]
      norm_num
    · by_cases h2 : v < 2 ^ 31 - 1
      · have hw : wrap32 v = v := wrap32_eq_self v (by omega) (by omega)
        have hcond : ¬(v ≤ 1 ∨ wrap32 v ≠ v) := by
          push_neg
          exact ⟨by omega, hw⟩
        simp only [getTripAlignment, getTripCount]
        rw [if_neg hcond]
        have hw1 : wrap32 (v + 1) = v + 1 := wrap32_eq_self _ (by omega) (by omega)
        rw [hw1]
        rw [if_pos (by omega : v + 1 > 0)]
        rw [if_pos (by omega : (1:Int) < v ∧ v < 2 ^ 31 - 1)]
      · by_cases h3 : v = 2 ^ 31 - 1
        · subst h3
          have hw : wrap32 ((2:Int) ^ 31 - 1) = (2:Int) ^ 31 - 1 :=
            wrap32_eq_self _ (by norm_num) (by norm_num)
          have hcond : ¬(((2:Int) ^ 31 - 1) ≤ 1 ∨
              wrap32 ((2:Int) ^ 31 - 1) ≠ (2:Int) ^ 31 - 1) := by
            push_neg
            exact ⟨by norm_num, hw⟩
          simp only [getTripAlignment, getTripCount]
          rw [if_neg hcond]
          have hw2 : wrap32 ((2:Int) ^ 31 - 1 + 1) = -(2 ^ 31) := by
            unfold wrap32
            norm_num
          rw [hw2]
          rw [if_neg (by norm_num : ¬(-(2:Int) ^ 31 > 0))]
          rw [if_neg (by norm_num : ¬((1:Int) < 2 ^ 31 - 1 ∧ (2:Int) ^ 31 - 1 < 2 ^ 31 - 1))]
        · have hv : (2:Int) ^ 31 ≤ v := by omega
          have hwb := wrap32_nonneg_bound v
          have hw : wrap32 v ≠ v := by omega
          simp only [getTripAlignment, getTripCount]
          rw [if_pos (Or.inr hw)]
          rw [if_neg (by omega : ¬((1:Int) < v ∧ v < 2 ^ 31 - 1))]
          norm_num

/-- C9 counterexample: with `RV_FORCE_WIDTH=0` (atoi of a zero or
non-numeric text) the pass commits to transforming the loop with
chosen width 0, which is not a positive integer. -/
theorem c9_width_zero_cex :
    (vectorizeLoop envForce0 pick4 loopPlain).vectorized = true ∧
    (vectorizeLoop envForce0 pick4 loopPlain).transformed = true ∧
    (vectorizeLoop envForce0 pick4 loopPlain).finalWidth = some 0 ∧
    ¬(1 ≤ (0 : Int)) := by decide

/-- C9 (amended): the chosen width is a positive integer whenever the
sources of widths are themselves well-formed: any `RV_FORCE_WIDTH`
override parses to a positive value, any explicit metadata width is a
positive integer below 2^31, and the cost model returns widths below
2^31; under those conditions every width that reaches the transform is
at least 1. -/
theorem c9_width_positive_amended (env : EnvModel) (pick : Nat → Nat) (L : LoopModel)
    (w : Int)
    (henv : ∀ u, env.rvForceWidth = some u → 1 ≤ u)
    (hex : ∀ x, L.annot.explicitVectorWidth = some x → 1 ≤ x ∧ x < 2 ^ 31)
    (hpick : ∀ n, pick n < 2 ^ 31)
    (hw : (vectorizeLoop env pick L).finalWidth = some w) :
    1 ≤ w := by
  have hsel := finalWidth_from_selectWidth env pick L w hw
  refine selectWidth_pos env pick (effectiveAnnot L) (effDepDist L) w henv ?_ hpick hsel
  intro x hxx
  exact hex x (by rwa [effectiveAnnot_explicitWidth] at hxx)

/-- C9 witness: the amended theorem applied with `RV_FORCE_WIDTH=4`. -/
theorem c9_width_positive_amended_witness :
    (vectorizeLoop envForce4 pick4 loopPlain).finalWidth = some 4 ∧ (1 : Int) ≤ 4 :=
  ⟨by decide,
    c9_width_positive_amended envForce4 pick4 loopPlain 4
      (fun u hu => by injection hu with h; omega)
      (fun x hx => by simp [loopPlain, enabledMD] at hx)
      (fun n => by simp only [pick4]; decide)
      (by decide)⟩

/-- C10: when the pass runs (not disabled, hipSYCL kernel), the
whole-function result is "changed" exactly when some loop of the nest
vectorizes; a loop that vectorizes successfully has none of its
sub-loops visited, and a rejected loop has each of its immediate
sub-loops tried independently and recursively, with the loop itself
visited first (depth-first, outermost first). -/
theorem c10_traversal (env : EnvModel) (pick : Nat → Nat) (M : ModuleModel)
    (F : FunctionModel) (hdis : env.rvDisable = false)
    (hk : IsHipSYCLKernel M F.fid = true) :
    ((run env pick M F).1 = true ↔
      ∃ L, L ∈ forestLoops F.loopForest ∧ (vectorizeLoop env pick L).vectorized = true) ∧
    (∀ L subs, (vectorizeLoop env pick L).vectorized = true →
      visitedTree env pick (LoopTree.node L subs) = [L]) ∧
    (∀ L subs, (vectorizeLoop env pick L).vectorized = false →
      visitedTree env pick (LoopTree.node L subs) = L :: visitedForest env pick subs) := by
  refine ⟨?_, ?_, ?_⟩
  · have hrun : (run env pick M F).1 = vlosForest env pick F.loopForest := by
      simp [run, hdis, hk]
    rw [hrun]
    exact vlosForest_eq_true_iff env pick F.loopForest
  · intro L subs h
    unfold visitedTree
    simp [h]
  · intro L subs h
    unfold visitedTree
    simp [h]

/-- C10 witness: with the kernel module, the traversal facts applied
at a concrete singleton nest whose root vectorizes. -/
theorem c10_traversal_witness :
    envPlain.rvDisable = false ∧
    IsHipSYCLKernel moduleKernel funcKernel.fid = true ∧
    visitedTree envPlain pick4 (LoopTree.node loopPlain LoopForest.nil) = [loopPlain] :=
  ⟨rfl, by decide,
    (c10_traversal envPlain pick4 moduleKernel funcKernel rfl (by decide)).2.1 loopPlain
      LoopForest.nil (by decide)⟩

end RV
